import Mathlib

set_option maxHeartbeats 1000000

set_option maxRecDepth 100000

/-!
Verification of the agent-loop travel-assistant backend.

This file is a shallow embedding of the backend's core modules:

* `backend/cache.py`       — `key_for`, `cache_get`, `cache_set`
* `backend/tools/currency.py` — `convert`
* `backend/tools/weather.py`  — `get_weather`
* `backend/tools/wikipedia.py` — `search_wikipedia`
* `backend/agent_loop.py`  — `choose_tool_result`, `execute_tool`, `run`

External collaborators (the Gemini reasoning model, the HTTP APIs behind the
tools, redis, `hashlib.sha256`, `json.dumps` value rendering, and the missing
`tools/utils.py` helper `normalize_city`) are modelled as explicit oracle
parameters: each theorem quantifies over them, so the theorems hold for every
behaviour of those collaborators.  Timestamps (`datetime.now()`) are likewise
supplied as parameters.  The redis cache is modelled as an association list;
storing a value models `json.dumps` followed by `json.loads` on retrieval,
which is the identity on the JSON-representable payloads the tools cache
(TTL expiry is outside the model).
-/

/-- Python-style dynamic value: the scalar JSON values (plus lists of
strings) that flow through decisions, tool payloads and cache entries. -/
inductive PyVal where
  | str (s : String)
  | num (q : Rat)
  | bool (b : Bool)
  | none
  | strList (l : List String)
deriving DecidableEq, Repr

/-- A Python `dict` with string keys, as an association list (first match
wins; the dicts built by the backend never repeat a key). -/
abbrev Dict := List (String × PyVal)

/-- `d.get(k)` returning `Option`. -/
def dictGet (d : Dict) (k : String) : Option PyVal :=
  (d.find? (fun e => e.1 == k)).map (fun e => e.2)

/-- Python `d.get(k, dflt)`: the stored value when the key is present
(even if that value is `None`), otherwise the default. -/
def pyGetD (d : Dict) (k : String) (dflt : PyVal) : PyVal :=
  (dictGet d k).getD dflt

/-- Python truthiness of a value. -/
def pyTruthy : PyVal → Bool
  | .str s => !(s == "")
  | .num q => !(q == 0)
  | .bool b => b
  | .none => false
  | .strList l => !l.isEmpty

/-- Python `str()` as used by f-string interpolation of these values.
Rationals with denominator 1 print like Python ints; the exact rendering of
non-integral numbers is immaterial to every claim. -/
def pyFmt : PyVal → String
  | .str s => s
  | .num q => if q.den == 1 then toString q.num else toString q
  | .bool b => if b then "True" else "False"
  | .none => "None"
  | .strList l => "[" ++ String.intercalate ", " (l.map (fun s => "'" ++ s ++ "'")) ++ "]"

/-- Python `s.lower()` (character-wise; the strings the backend lowers are
ASCII tool names and location names). -/
def strLower (s : String) : String := String.mk (s.data.map Char.toLower)

/-- Python `s.upper()` (character-wise). -/
def strUpper (s : String) : String := String.mk (s.data.map Char.toUpper)

/-- Python `v.lower()`: defined on `str`, an `AttributeError` on every
other value. -/
def pyLower : PyVal → Except String String
  | .str s => .ok (strLower s)
  | _ => .error "AttributeError"

/-- Python `needle in hay` on lists of characters (substring test). -/
def charsInfix : List Char → List Char → Bool
  | n, [] => n.isEmpty
  | n, c :: rest => n.isPrefixOf (c :: rest) || charsInfix n rest

/-- Python `needle in hay` on strings. -/
def pyIn (needle hay : String) : Bool :=
  charsInfix needle.data hay.data

/-- Truthiness of an optional string argument (`None` and `""` are falsy). -/
def optTruthy : Option String → Bool
  | some s => !(s == "")
  | none => false

/-- Python `s.strip(", ")`: remove `,` and space characters from both ends. -/
def stripCommaSpace (s : String) : String :=
  let isStrip := fun c => c == ',' || c == ' '
  String.mk (((s.data.dropWhile isStrip).reverse.dropWhile isStrip).reverse)

/-- The process-fixed pure helpers shared by the tool modules:
`normalize_city` from the (absent) `tools/utils.py`, `hashlib.sha256(...)
.hexdigest()`, and `json.dumps` rendering of a single value.  All three are
deterministic pure functions of their input; the theorems quantify over
them. -/
structure PureFns where
  normalizeCity : String → String
  sha256hex : String → String
  render : PyVal → String

/-- `cache.py`: the redis store, as an association list keyed by the cache
key (first binding wins, so `cache_set` shadows older entries). -/
abbrev Cache := List (String × Dict)

/-- `cache.py` `cache_get`: `_redis.get(key)`, deserialised. -/
def cache_get (c : Cache) (k : String) : Option Dict :=
  (c.find? (fun e => e.1 == k)).map (fun e => e.2)

/-- `cache.py` `cache_set`: `_redis.setex(key, ttl, json.dumps(value))`.
TTL expiry is outside the model. -/
def cache_set (c : Cache) (k : String) (v : Dict) : Cache :=
  (k, v) :: c

/-- Ordering of dict items by key, as produced by
`json.dumps(..., sort_keys=True)`. -/
def keyLE (p q : String × PyVal) : Prop := p.1 ≤ q.1

instance : DecidableRel keyLE := fun p q =>
  decidable_of_iff (p.1.toList ≤ q.1.toList) String.le_iff_toList_le.symm

instance : IsTotal (String × PyVal) keyLE := ⟨fun a b => le_total a.1 b.1⟩

instance : IsTrans (String × PyVal) keyLE := ⟨fun _ _ _ h1 h2 => le_trans h1 h2⟩

/-- `json.dumps(payload, sort_keys=True)`: serialise the items sorted by
key, with Python's default `", "` and `": "` separators; individual value
rendering is the supplied oracle. -/
def jsonDumpsSorted (render : PyVal → String) (payload : Dict) : String :=
  "\x7b" ++
    String.intercalate ", "
      ((List.insertionSort keyLE payload).map
        (fun e => "\"" ++ e.1 ++ "\": " ++ render e.2)) ++
    "\x7d"

/-- `cache.py` `key_for`: prefix, a colon, and the first 24 hex characters
of the SHA-256 of the key-sorted JSON dump of the payload. -/
def key_for (fns : PureFns) (pre : String) (payload : Dict) : String :=
  pre ++ ":" ++ (fns.sha256hex (jsonDumpsSorted fns.render payload)).take 24

/-- The parsed body of the exchange-rate API response used by
`currency.convert`: the optional `"rates"` mapping and the optional
`"date"` field. -/
structure CurrencyResp where
  rates : Option (List (String × Rat))
  date : Option String
deriving DecidableEq, Repr

/-- `dst in r["rates"]` / `r["rates"][dst]` combined lookup. -/
def lookupRate (rates : List (String × Rat)) (dst : String) : Option Rat :=
  (rates.find? (fun e => e.1 == dst)).map (fun e => e.2)

/-- Python `round(x, 2)` over the rationals.  (Python rounds float ties to
even; no claim depends on tie behaviour.) -/
def round2 (q : Rat) : Rat := (round (q * 100) : ℤ) / 100

/-- Python `None`-or-value for the optional date field. -/
def optStrVal : Option String → PyVal
  | some s => .str s
  | none => .none

/-- `tools/currency.py` `convert`.  The upstream
`requests.get(...).json()` call is the `resp` oracle: `.error e` models the
call raising (caught by the `except` clause), `.ok r` the parsed body.
Note that `convert` consults no cache. -/
def convert (amount : Rat) (src dst : String) (resp : Except String CurrencyResp) : Dict :=
  let src := strUpper src
  let dst := strUpper dst
  match resp with
  | .error e =>
      [("amount", .num amount), ("from", .str src), ("to", .str dst),
       ("result", .none), ("date", .none), ("error", .str e)]
  | .ok r =>
      match r.rates with
      | some rates =>
          match lookupRate rates dst with
          | some rate =>
              [("amount", .num amount), ("from", .str src), ("to", .str dst),
               ("result", .num (round2 (amount * rate))),
               ("date", optStrVal r.date)]
          | none =>
              [("amount", .num amount), ("from", .str src), ("to", .str dst),
               ("result", .none), ("date", .none),
               ("error", .str ("Unable to convert " ++ src ++ " to " ++ dst))]
      | none =>
          [("amount", .num amount), ("from", .str src), ("to", .str dst),
           ("result", .none), ("date", .none),
           ("error", .str ("Unable to convert " ++ src ++ " to " ++ dst))]

/-- One entry of the Open-Meteo geocoding response's `"results"` list,
restricted to the fields `get_weather` reads.  (`latitude`/`longitude` are
accessed by indexing and are always present in the upstream schema.) -/
structure GeoResult where
  name : Option String
  latitude : Rat
  longitude : Rat
  admin1 : Option String
  country : Option String
deriving DecidableEq, Repr

/-- The `"current_weather"` object of the Open-Meteo forecast response:
the three fields `get_weather` reads, each already defaulted to `None`
when absent (Python `.get`). -/
structure CurrentWeather where
  temperature : PyVal
  windspeed : PyVal
  weathercode : PyVal
deriving DecidableEq, Repr

/-- The two upstream HTTP collaborators of `get_weather`.  `.error e`
models the request (or `.json()`) raising — `get_weather` itself installs
no handler, so such an error propagates to the caller. -/
structure WeatherEnv where
  geocode : String → Except String (List GeoResult)
  forecast : Rat → Rat → Except String (Option CurrentWeather)

/-- The candidate filter of `get_weather`'s geocoding loop: a result is
skipped when a requested country (resp. state) is truthy, the result's
field is truthy, and the lower-cased request is not a substring of the
lower-cased field. -/
def geoPasses (state country : Option String) (r : GeoResult) : Bool :=
  !(optTruthy country && optTruthy r.country &&
      !(pyIn (strLower (country.getD "")) (strLower (r.country.getD "")))) &&
  !(optTruthy state && optTruthy r.admin1 &&
      !(pyIn (strLower (state.getD "")) (strLower (r.admin1.getD ""))))

/-- `get_weather`'s `for query in search_queries` loop.  `g` is the
running `geo` variable.  When a query has results: with filtering on, the
first passing result overwrites `g` and the loop continues; if no result
passes (or filtering is off) and `g` is still unset, the loop takes the
first result and breaks. -/
def geoLoop (env : WeatherEnv) (filterOn : Bool) (state country : Option String) :
    Option GeoResult → List String → Except String (Option GeoResult)
  | g, [] => .ok g
  | g, q :: rest =>
      match env.geocode q with
      | .error e => .error e
      | .ok [] => geoLoop env filterOn state country g rest
      | .ok (r0 :: rs) =>
          let g2 := if filterOn then
                      match (r0 :: rs).find? (geoPasses state country) with
                      | some m => some m
                      | none => g
                    else g
          match g2 with
          | none => .ok (some r0)
          | some m => geoLoop env filterOn state country (some m) rest

/-- The display name `get_weather` builds from the chosen geocoding
result: `result.get("name", city)` plus truthy `admin1` and `country`. -/
def locationName (city : String) (r : GeoResult) : String :=
  (r.name.getD city)
    ++ (if optTruthy r.admin1 then ", " ++ r.admin1.getD "" else "")
    ++ (if optTruthy r.country then ", " ++ r.country.getD "" else "")

/-- The `search_queries` list: the truthy state/country combination first,
then always the bare city. -/
def searchQueries (city : String) (state country : Option String) : List String :=
  (if optTruthy state && optTruthy country then
      [city ++ ", " ++ state.getD "" ++ ", " ++ country.getD ""]
    else if optTruthy state then [city ++ ", " ++ state.getD ""]
    else if optTruthy country then [city ++ ", " ++ country.getD ""]
    else []) ++ [city]

/-- `cache_params`: the normalised city plus state/country when truthy. -/
def weatherParams (city : String) (state country : Option String) : Dict :=
  [("city", .str city)]
    ++ (if optTruthy state then [("state", .str (state.getD ""))] else [])
    ++ (if optTruthy country then [("country", .str (country.getD ""))] else [])

/-- The cache key `get_weather` computes (from the normalised city). -/
def weatherKey (fns : PureFns) (city : String) (state country : Option String) : String :=
  key_for fns "weather" (weatherParams (fns.normalizeCity city) state country)

/-- Python `state or ''`. -/
def orEmpty (o : Option String) : String :=
  if optTruthy o then o.getD "" else ""

/-- The "City not found" payload. -/
def weatherNotFound (city : String) (state country : Option String) : Dict :=
  [("city", .str (stripCommaSpace (city ++ ", " ++ orEmpty state ++ ", " ++ orEmpty country))),
   ("error", .str "City not found")]

/-- `w.get("current_weather", {}).get(field)`. -/
def cwField (w : Option CurrentWeather) (f : CurrentWeather → PyVal) : PyVal :=
  match w with
  | some cw => f cw
  | none => .none

/-- `tools/weather.py` `get_weather`: normalise the city, build the search
queries, consult the cache, otherwise geocode, fetch the forecast, store
the payload in the cache and return it.  The not-found payload is returned
without caching. -/
def get_weather (fns : PureFns) (env : WeatherEnv) (cache : Cache)
    (city : String) (state country : Option String) : Except String (Dict × Cache) :=
  let city := fns.normalizeCity city
  let queries := searchQueries city state country
  let k := key_for fns "weather" (weatherParams city state country)
  match cache_get cache k with
  | some cached => .ok (cached, cache)
  | none =>
      match geoLoop env (optTruthy country || optTruthy state) state country none queries with
      | .error e => .error e
      | .ok none => .ok (weatherNotFound city state country, cache)
      | .ok (some r) =>
          match env.forecast r.latitude r.longitude with
          | .error e => .error e
          | .ok w =>
          let out : Dict :=
            [("city", .str (locationName city r)),
             ("latitude", .num r.latitude),
             ("longitude", .num r.longitude),
             ("temperature_c", cwField w (fun cw => cw.temperature)),
             ("windspeed_kmh", cwField w (fun cw => cw.windspeed)),
             ("conditions_code", cwField w (fun cw => cw.weathercode))]
          .ok (out, cache_set cache k out)

/-- Python `s.strip()` (whitespace from both ends). -/
def stripWs (s : String) : String :=
  String.mk (((s.data.dropWhile Char.isWhitespace).reverse.dropWhile Char.isWhitespace).reverse)

/-- Python `s.replace(pat, "")` on character lists: remove all
non-overlapping occurrences, scanning left to right. -/
def removeAllChars (pat : List Char) (l : List Char) : List Char :=
  match l with
  | [] => []
  | c :: rest =>
      if pat ≠ [] ∧ pat.isPrefixOf (c :: rest) then
        removeAllChars pat (rest.drop (pat.length - 1))
      else c :: removeAllChars pat rest
termination_by l.length
decreasing_by
  · simp only [List.length_drop, List.length_cons]
    omega
  · simp only [List.length_cons]
    omega

/-- Python `s.replace(pat, "")` on strings. -/
def removeAllStr (s pat : String) : String :=
  String.mk (removeAllChars pat.data s.data)

/-- Python `s.split()`: split on whitespace runs, dropping empty pieces.
The first argument accumulates the current word, reversed. -/
def wordsAux : List Char → List Char → List (List Char)
  | acc, [] => if acc.isEmpty then [] else [acc.reverse]
  | acc, c :: rest =>
      if c.isWhitespace then
        if acc.isEmpty then wordsAux [] rest else acc.reverse :: wordsAux [] rest
      else wordsAux (c :: acc) rest

/-- Python `s.split()`. -/
def pySplitWs (s : String) : List String :=
  (wordsAux [] s.data).map String.mk

/-- The simplified query `search_wikipedia` retries with:
`" ".join(query.lower().replace("latest","").replace("trends","")
.replace("current","").replace("in","").strip().split()).strip()`. -/
def wikiSimplified (query : String) : String :=
  stripWs (String.intercalate " "
    (pySplitWs (removeAllStr (removeAllStr (removeAllStr (removeAllStr
      (strLower query) "latest") "trends") "current") "in")))

/-- The fields of a fetched `wikipedia.page` object that
`search_wikipedia` reads (the `hasattr` guards hold for real pages). -/
structure WikiPage where
  title : String
  url : String
  images : List String
  categories : List String
  references : List String
deriving DecidableEq, Repr

/-- An exception escaping to `search_wikipedia`'s outer handlers:
`wikipedia.DisambiguationError`, `wikipedia.PageError`, or any other
exception. -/
inductive WikiExc where
  | disambig (options : List String)
  | pageError
  | generic (e : String)
deriving DecidableEq, Repr

/-- The outcome of one `wikipedia.page(title)` call. -/
inductive PageFetch where
  | found (p : WikiPage)
  | disambig (options : List String)
  | pageError
  | raised (e : String)
deriving DecidableEq, Repr

/-- The `wikipedia` library collaborators of `search_wikipedia`. -/
structure WikiEnv where
  search : String → Except String (List String)
  page : String → PageFetch
  summary : String → PyVal → Except WikiExc String

/-- The fallback loop over search results: the first title whose page
fetch succeeds; `DisambiguationError`/`PageError` are swallowed and the
loop continues; any other exception propagates. -/
def tryPages (env : WikiEnv) : List String → Except WikiExc (Option (WikiPage × String))
  | [] => .ok none
  | t :: rest =>
      match env.page t with
      | .found p => .ok (some (p, t))
      | .disambig _ => tryPages env rest
      | .pageError => tryPages env rest
      | .raised e => .error (.generic e)

/-- The "no articles found" payload. -/
def wikiNoResults (query : String) : Dict :=
  [("error", .str ("No Wikipedia articles found for '" ++ query ++ "'")),
   ("query", .str query), ("success", .bool false),
   ("suggestion", .str "Try a different search term or check the spelling")]

/-- The "could not retrieve" payload. -/
def wikiCouldNotRetrieve (query : String) (sr : List String) : Dict :=
  [("error", .str ("Could not retrieve Wikipedia article for '" ++ query ++ "'")),
   ("query", .str query),
   ("suggestions", .strList (if sr.isEmpty then [] else sr.take 3)),
   ("success", .bool false)]

/-- The `DisambiguationError` handler's payload. -/
def wikiDisambig (query : String) (options : List String) : Dict :=
  [("error", .str ("Multiple Wikipedia articles found for '" ++ query ++ "'")),
   ("query", .str query), ("suggestions", .strList (options.take 5)),
   ("success", .bool false),
   ("message", .str "Please be more specific or choose from the suggestions")]

/-- The `PageError` handler's payload. -/
def wikiNoPage (query : String) : Dict :=
  [("error", .str ("No Wikipedia page exists for '" ++ query ++ "'")),
   ("query", .str query), ("success", .bool false)]

/-- The generic exception handler's payload (never cached). -/
def wikiGeneric (query e : String) : Dict :=
  [("error", .str ("Error accessing Wikipedia: " ++ e)),
   ("query", .str query), ("success", .bool false)]

/-- The success payload. -/
def wikiSuccess (p : WikiPage) (summary : String) : Dict :=
  [("title", .str p.title), ("summary", .str summary), ("url", .str p.url),
   ("categories", .strList (p.categories.take 5)),
   ("images", .strList (p.images.take 3)),
   ("references", .strList (p.references.take 5)),
   ("success", .bool true)]

/-- The cache key `search_wikipedia` computes. -/
def wikiKey (fns : PureFns) (query : String) (sentences : PyVal) : String :=
  key_for fns "wikipedia" [("query", .str query), ("sentences", sentences)]

/-- `tools/wikipedia.py` `search_wikipedia`, with explicit fuel for the
source's simplified-query retry (Python's retry argument is strictly
shorter each time, so the fuel supplied by `search_wikipedia` below is
never exhausted on the paths the source can take). -/
def searchWikipediaGo (fns : PureFns) (env : WikiEnv) :
    Nat → Cache → String → PyVal → Dict × Cache
  | 0, cache, query, _ => (wikiGeneric query "maximum recursion depth exceeded", cache)
  | fuel + 1, cache, query, sentences =>
    let k := wikiKey fns query sentences
    match cache_get cache k with
    | some cached => (cached, cache)
    | none =>
      let body : Except WikiExc (Dict × Cache) := do
        let sr ← match env.search query with
          | .ok sr => Except.ok sr
          | .error e => Except.error (WikiExc.generic e)
        if sr.isEmpty then
          let d := wikiNoResults query
          pure (d, cache_set cache k d)
        else do
          let pageOpt ← match env.page query with
            | .found p => Except.ok (some (p, query))
            | .disambig _ => tryPages env sr
            | .pageError => tryPages env sr
            | .raised e => Except.error (WikiExc.generic e)
          match pageOpt with
          | none =>
              let noRetrieve : Except WikiExc (Dict × Cache) :=
                let d := wikiCouldNotRetrieve query sr
                pure (d, cache_set cache k d)
              let lower := strLower query
              if pyIn "trends" lower || pyIn "latest" lower || pyIn "current" lower then
                let words := pySplitWs (removeAllStr (removeAllStr (removeAllStr
                  (removeAllStr lower "latest") "trends") "current") "in")
                if words.isEmpty then noRetrieve
                else
                  let simplified := stripWs (String.intercalate " " words)
                  if simplified ≠ query then
                    pure (searchWikipediaGo fns env fuel cache simplified sentences)
                  else noRetrieve
              else noRetrieve
          | some (p, title) => do
              let summ ← env.summary title sentences
              let d := wikiSuccess p summ
              pure (d, cache_set cache k d)
      match body with
      | .ok r => r
      | .error (.disambig opts) =>
          let d := wikiDisambig query opts
          (d, cache_set cache k d)
      | .error .pageError =>
          let d := wikiNoPage query
          (d, cache_set cache k d)
      | .error (.generic e) => (wikiGeneric query e, cache)

/-- `search_wikipedia` with enough fuel for every source-reachable
retry chain. -/
def search_wikipedia (fns : PureFns) (env : WikiEnv) (cache : Cache)
    (query : String) (sentences : PyVal) : Dict × Cache :=
  searchWikipediaGo fns env (query.length + 1) cache query sentences

/-- The three tool callables as `agent_loop.py` imports them.  At this
boundary the tools are external collaborators receiving the (possibly
ill-typed) values taken from the decision dict; `.error e` models the call
raising `e` (caught by `execute_tool`'s `try`). -/
structure RunEnv where
  weather : PyVal → PyVal → PyVal → Except String Dict
  currency : PyVal → PyVal → PyVal → Except String Dict
  wikipedia : PyVal → PyVal → Except String Dict

/-- The `"  Error: ..."` line, emitted when the result's `error` field is
truthy. -/
def errLine (r : Dict) : String :=
  if pyTruthy (pyGetD r "error" .none) then
    "  Error: " ++ pyFmt (pyGetD r "error" .none) ++ "\n"
  else ""

/-- The formatted weather block of `execute_tool`. -/
def weatherBlock (ts : String) (r : Dict) (city reason : PyVal) : String :=
  "\n+ Weather function was called at " ++ ts ++ " and generated this output:\n"
    ++ "  City: " ++ pyFmt (pyGetD r "city" city) ++ "\n"
    ++ "  Temperature: " ++ pyFmt (pyGetD r "temperature_c" (.str "N/A")) ++ "°C\n"
    ++ "  Wind Speed: " ++ pyFmt (pyGetD r "windspeed_kmh" (.str "N/A")) ++ " km/h\n"
    ++ "  Conditions: " ++ pyFmt (pyGetD r "conditions_code" (.str "N/A")) ++ "\n"
    ++ errLine r
    ++ "  REASON: " ++ pyFmt reason ++ "\n"

/-- The formatted currency block of `execute_tool`. -/
def currencyBlock (ts : String) (r : Dict) (amount fromC toC reason : PyVal) : String :=
  "\n+ Currency function was called at " ++ ts ++ " and generated this output:\n"
    ++ "  Converting: " ++ pyFmt amount ++ " " ++ pyFmt fromC ++ " to " ++ pyFmt toC ++ "\n"
    ++ "  Result: " ++ pyFmt (pyGetD r "result" (.str "N/A")) ++ " " ++ pyFmt toC ++ "\n"
    ++ "  Rate: " ++ pyFmt (pyGetD r "rate" (.str "N/A")) ++ "\n"
    ++ errLine r
    ++ "  REASON: " ++ pyFmt reason ++ "\n"

/-- The formatted wikipedia block of `execute_tool`. -/
def wikipediaBlock (ts : String) (r : Dict) (query reason : PyVal) : String :=
  "\n+ Wikipedia function was called at " ++ ts ++ " and generated this output:\n"
    ++ "  Query: " ++ pyFmt query ++ "\n"
    ++ "  Title: " ++ pyFmt (pyGetD r "title" (.str "N/A")) ++ "\n"
    ++ "  Summary: " ++ pyFmt (pyGetD r "summary" (.str "No summary available")) ++ "\n"
    ++ "  URL: " ++ pyFmt (pyGetD r "url" (.str "N/A")) ++ "\n"
    ++ errLine r
    ++ "  REASON: " ++ pyFmt reason ++ "\n"

/-- The `get_context` pseudo-tool's output. -/
def getContextBlock (ts ctx : String) : String :=
  "\n[Context requested at " ++ ts ++ "]\nCurrent accumulated context:\n" ++ ctx ++ "\n"

/-- The unknown-tool message. -/
def unknownBlock (tn ts : String) : String :=
  "\n+ Unknown tool '" ++ tn ++ "' requested at " ++ ts ++ "\n"

/-- The `except` clause's message: tool name, timestamp, and the raised
exception's text. -/
def errExec (tn ts e : String) : String :=
  "\n+ Error executing " ++ tn ++ " at " ++ ts ++ ": " ++ e ++ "\n"

namespace AgentLoop

/-- The `try` body of `AgentLoop.execute_tool`: dispatch on the lowered
tool name, call the tool, format its payload.  An `.error` is an exception
raised inside the `try` (only the tool calls can raise). -/
def execBody (env : RunEnv) (ctx ts : String) (d : Dict) (tn : String) : Except String String :=
  if tn = "weather" then
    match env.weather (pyGetD d "city" (.str "")) (pyGetD d "state" .none)
        (pyGetD d "country" .none) with
    | .error e => .error e
    | .ok r =>
        .ok (weatherBlock ts r (pyGetD d "city" (.str ""))
          (pyGetD d "reason" (.str "Checking weather conditions")))
  else if tn = "currency" then
    match env.currency (pyGetD d "amount" (.num 1)) (pyGetD d "from" (.str "USD"))
        (pyGetD d "to" (.str "EUR")) with
    | .error e => .error e
    | .ok r =>
        .ok (currencyBlock ts r (pyGetD d "amount" (.num 1)) (pyGetD d "from" (.str "USD"))
          (pyGetD d "to" (.str "EUR")) (pyGetD d "reason" (.str "Converting currency")))
  else if tn = "wikipedia" then
    match env.wikipedia (pyGetD d "query" (.str "")) (pyGetD d "sentences" (.num 3)) with
    | .error e => .error e
    | .ok r =>
        .ok (wikipediaBlock ts r (pyGetD d "query" (.str ""))
          (pyGetD d "reason" (.str "Searching for information")))
  else if tn = "get_context" then .ok (getContextBlock ts ctx)
  else if tn = "stop" then .ok ""
  else .ok (unknownBlock tn ts)

/-- `AgentLoop.execute_tool`.  `tool_decision.get("tool", "").lower()`
happens before the `try` block — `pyLower` of a non-string raises, and
that `AttributeError` propagates (`.error`).  Inside the `try`, every
branch yields a string, and a raising tool call is converted by the
`except` clause into `errExec`. -/
def execute_tool (env : RunEnv) (ctx ts : String) (d : Dict) : Except String String :=
  match pyLower (pyGetD d "tool" (.str "")) with
  | .error e => .error e
  | .ok tn =>
    match execBody env ctx ts d tn with
    | .ok out => .ok out
    | .error e => .ok (errExec tn ts e)

end AgentLoop

/-- The character `U+007B`. -/
def openBraceChar : Char := Char.ofNat 123

/-- The character `U+007D`. -/
def closeBraceChar : Char := Char.ofNat 125

/-- `response_text[start:end]` where `start = index(openBrace)` and
`end = rindex(closeBrace) + 1`. -/
def extractBraced (t : String) : String :=
  let cs := t.data
  let start := cs.indexOf openBraceChar
  let fin := cs.length - 1 - cs.reverse.indexOf closeBraceChar + 1
  String.mk ((cs.drop start).take (fin - start))

/-- The fallback decision `choose_tool_result` returns on any failure. -/
def chooseDefaultStop : Dict := [("tool", .str "stop"), ("stop", .bool true)]

namespace AgentLoop

/-- `AgentLoop.choose_tool_result`, given the reasoning model's raw reply.
`resp` is the outcome of `self.model.generate_content(...).text` (`.error`
models that call raising — caught by the `except` clause); `parse` is
`json.loads` restricted to the extracted brace-delimited slice, with
`none` for a `JSONDecodeError` (also caught).  Every failure path returns
the default stop decision. -/
def choose_tool_result (parse : String → Option Dict) (resp : Except String String) : Dict :=
  match resp with
  | .error _ => chooseDefaultStop
  | .ok raw =>
      let t := stripWs raw
      if t.data.contains openBraceChar && t.data.contains closeBraceChar then
        match parse (extractBraced t) with
        | some d => d
        | none => chooseDefaultStop
      else chooseDefaultStop

end AgentLoop

/-- A callback event: the loop emits one `thinking` per decision and one
`thinkingComplete` when a stop decision ends the run. -/
inductive Event where
  | thinking (iteration : Nat) (tool reason : PyVal) (params : Dict)
  | thinkingComplete (message : String)
deriving DecidableEq, Repr

/-- The `params` payload of a thinking event: the decision minus the
`tool`, `reason` and `stop` keys. -/
def thinkingParams (d : Dict) : Dict :=
  d.filter (fun e => !(e.1 == "tool" || e.1 == "reason" || e.1 == "stop"))

/-- One run's configuration: the tool collaborators, the decision engine
(`choose_tool_result` as a function of the 0-indexed iteration and the
current context — covering every possible sequence of its replies), the
timestamps `datetime.now()` yields, whether a thinking callback was
passed, and `max_iterations`. -/
structure LoopCfg where
  env : RunEnv
  engine : Nat → String → Dict
  stepTs : Nat → String
  finalTs : String
  hasCallback : Bool
  maxIterations : Nat := 10

/-- The loop's mutable state, plus two ghost observations: `events` (what
the thinking callback has received) and `trace` (the context value at the
end of each completed iteration, where the source logs its size). -/
structure RunState where
  ctx : String
  iter : Nat
  events : List Event
  calls : Nat
  trace : List String
deriving DecidableEq, Repr

/-- `"=" * 80`. -/
def eqLine : String := String.mk (List.replicate 80 '=')

/-- `"-" * 40 + "\n"`, appended after every non-empty tool output. -/
def dashLine : String := String.mk (List.replicate 40 '-') ++ "\n"

/-- The seed context: the original query line and its delimiter. -/
def seedCtx (q : String) : String :=
  "Original user query was: " ++ q ++ "\n" ++ eqLine ++ "\n"

/-- The context up to and including the iteration-count line of the final
metadata block; its length is the number the size line reports. -/
def metaHead (base : String) (k : Nat) : String :=
  base ++ "\n" ++ eqLine ++ "\n"
    ++ "Agent loop completed after " ++ toString k ++ " iterations\n"

/-- The full final context: `metaHead`, the size line (measuring
`metaHead` itself, since Python evaluates `len(self.output_context)`
before appending the size line), and the timestamp line. -/
def finalizeCtx (base : String) (k : Nat) (ts : String) : String :=
  metaHead base k ++ "Total context size: " ++ toString (metaHead base k).length
    ++ " characters\n" ++ "Timestamp: " ++ ts ++ "\n"

/-- The run's outcome: the returned context with the ghost observations,
or a propagated exception. -/
inductive RunOut where
  | ok (ctx : String) (iter : Nat) (events : List Event) (calls : Nat) (trace : List String)
  | err (e : String)
deriving DecidableEq, Repr

/-- The outcome of one loop iteration: stop-`break`, continue, or a
propagated exception. -/
inductive StepRes where
  | halt (st : RunState)
  | next (st : RunState)
  | fail (e : String)
deriving DecidableEq, Repr

namespace AgentLoop

/-- One iteration of `AgentLoop.run`'s `for` body: consult the decision
engine, emit the thinking event (when a callback was passed and the
decision dict is truthy), break on a decision whose raw `tool` value
equals `"stop"`, otherwise execute the tool and append its non-empty
output plus the dashed separator. -/
def runStep (cfg : LoopCfg) (i : Nat) (st : RunState) : StepRes :=
  let iter := i + 1
  let d := cfg.engine i st.ctx
  let ev1 :=
    if cfg.hasCallback && !d.isEmpty then
      st.events ++ [Event.thinking iter (pyGetD d "tool" .none)
        (pyGetD d "reason" (.str "Analyzing query...")) (thinkingParams d)]
    else st.events
  if pyGetD d "tool" .none = PyVal.str "stop" then
    let ev2 :=
      if cfg.hasCallback then ev1 ++ [Event.thinkingComplete "Finished gathering information"]
      else ev1
    .halt { st with iter := iter, events := ev2, calls := st.calls + 1 }
  else
    match execute_tool cfg.env st.ctx (cfg.stepTs i) d with
    | .error e => .fail e
    | .ok out =>
        let ctx2 := if out = "" then st.ctx else st.ctx ++ out ++ dashLine
        .next { ctx := ctx2, iter := iter, events := ev1, calls := st.calls + 1,
                trace := st.trace ++ [ctx2] }

/-- Appending the final metadata block and returning. -/
def finalize (cfg : LoopCfg) (st : RunState) : RunOut :=
  .ok (finalizeCtx st.ctx st.iter cfg.finalTs) st.iter st.events st.calls st.trace

/-- The `for iteration in range(max_iterations)` loop, by remaining fuel
`n` and current 0-indexed iteration `i`. -/
def runGo (cfg : LoopCfg) : Nat → Nat → RunState → RunOut
  | 0, _, st => finalize cfg st
  | n + 1, i, st =>
      match runStep cfg i st with
      | .halt st2 => finalize cfg st2
      | .next st2 => runGo cfg n (i + 1) st2
      | .fail e => .err e

/-- `AgentLoop.run`: seed the context with the query, loop, and append the
final metadata. -/
def run (cfg : LoopCfg) (q : String) : RunOut :=
  runGo cfg cfg.maxIterations 0
    { ctx := seedCtx q, iter := 0, events := [], calls := 0, trace := [] }

end AgentLoop

/-- String prefix, by an explicit completing suffix. -/
def strPfx (a b : String) : Prop := ∃ t, a ++ t = b

/-- Concatenation of a list of strings (each appended block in order). -/
def strConcat : List String → String
  | [] => ""
  | a :: l => a ++ strConcat l

lemma strPfx_refl (a : String) : strPfx a a := ⟨"", by simp⟩

lemma strPfx_trans {a b c : String} (h1 : strPfx a b) (h2 : strPfx b c) : strPfx a c := by
  obtain ⟨t1, rfl⟩ := h1
  obtain ⟨t2, rfl⟩ := h2
  exact ⟨t1 ++ t2, (String.append_assoc a t1 t2).symm⟩

lemma strPfx_append (a b : String) : strPfx a (a ++ b) := ⟨b, rfl⟩

lemma append_ne_empty (a b : String) (ha : a ≠ "") : a ++ b ≠ "" := by
  intro h
  have hd := congrArg String.data h
  rw [String.data_append] at hd
  exact ha (String.ext (List.append_eq_nil.mp hd).1)

lemma weatherBlock_ne (ts : String) (r : Dict) (city reason : PyVal) :
    weatherBlock ts r city reason ≠ "" := by
  unfold weatherBlock
  repeat apply append_ne_empty
  decide

lemma currencyBlock_ne (ts : String) (r : Dict) (amount fromC toC reason : PyVal) :
    currencyBlock ts r amount fromC toC reason ≠ "" := by
  unfold currencyBlock
  repeat apply append_ne_empty
  decide

lemma wikipediaBlock_ne (ts : String) (r : Dict) (query reason : PyVal) :
    wikipediaBlock ts r query reason ≠ "" := by
  unfold wikipediaBlock
  repeat apply append_ne_empty
  decide

lemma getContextBlock_ne (ts ctx : String) : getContextBlock ts ctx ≠ "" := by
  unfold getContextBlock
  repeat apply append_ne_empty
  decide

lemma unknownBlock_ne (tn ts : String) : unknownBlock tn ts ≠ "" := by
  unfold unknownBlock
  repeat apply append_ne_empty
  decide

lemma errExec_ne (tn ts e : String) : errExec tn ts e ≠ "" := by
  unfold errExec
  repeat apply append_ne_empty
  decide

lemma pyGetD_of_get_none {d : Dict} {k : String} (h : dictGet d k = none) (a : PyVal) :
    pyGetD d k a = a := by
  simp [pyGetD, h]

lemma pyGetD_of_get_some {d : Dict} {k : String} {v : PyVal} (h : dictGet d k = some v)
    (a : PyVal) : pyGetD d k a = v := by
  simp [pyGetD, h]

lemma rawTool_ne_stop {d : Dict} {s : String} (h : pyGetD d "tool" (.str "") = .str s)
    (hs : strLower s ≠ "stop") : pyGetD d "tool" .none ≠ PyVal.str "stop" := by
  cases hg : dictGet d "tool" with
  | none => simp [pyGetD_of_get_none hg]
  | some v =>
      rw [pyGetD_of_get_some hg] at h
      rw [pyGetD_of_get_some hg, h]
      intro hc
      rw [PyVal.str.injEq] at hc
      subst hc
      exact hs (by decide)

lemma stopdec_isEmpty_false {d : Dict} (h : pyGetD d "tool" .none = PyVal.str "stop") :
    d.isEmpty = false := by
  cases d with
  | nil => simp [pyGetD, dictGet] at h
  | cons a l => rfl

lemma execBody_ok_of_ne {env : RunEnv} {ctx ts : String} {d : Dict} {tn : String}
    (hstop : tn ≠ "stop") {out : String} (h : AgentLoop.execBody env ctx ts d tn = .ok out) :
    out ≠ "" := by
  unfold AgentLoop.execBody at h
  rw [if_neg hstop] at h
  split_ifs at h with h1 h2 h3 h4
  · split at h
    · exact absurd h (by simp)
    · rw [Except.ok.injEq] at h
      rw [← h]
      apply weatherBlock_ne
  · split at h
    · exact absurd h (by simp)
    · rw [Except.ok.injEq] at h
      rw [← h]
      apply currencyBlock_ne
  · split at h
    · exact absurd h (by simp)
    · rw [Except.ok.injEq] at h
      rw [← h]
      apply wikipediaBlock_ne
  · rw [Except.ok.injEq] at h
    rw [← h]
    apply getContextBlock_ne
  · rw [Except.ok.injEq] at h
    rw [← h]
    apply unknownBlock_ne

lemma execute_tool_eq {d : Dict} {s : String} (env : RunEnv) (ctx ts : String)
    (h : pyGetD d "tool" (.str "") = PyVal.str s) :
    AgentLoop.execute_tool env ctx ts d =
      match AgentLoop.execBody env ctx ts d (strLower s) with
      | .ok out => .ok out
      | .error e => .ok (errExec (strLower s) ts e) := by
  unfold AgentLoop.execute_tool
  rw [h]
  rfl

lemma execute_tool_ok {d : Dict} {s : String} (env : RunEnv) (ctx ts : String)
    (h : pyGetD d "tool" (.str "") = PyVal.str s) :
    ∃ out, AgentLoop.execute_tool env ctx ts d = .ok out := by
  rw [execute_tool_eq env ctx ts h]
  cases hb : AgentLoop.execBody env ctx ts d (strLower s) with
  | ok o => exact ⟨o, rfl⟩
  | error e => exact ⟨errExec (strLower s) ts e, rfl⟩

lemma execute_tool_ok_ne {d : Dict} {s : String} (env : RunEnv) (ctx ts : String)
    (h : pyGetD d "tool" (.str "") = PyVal.str s) (hs : strLower s ≠ "stop") :
    ∃ out, AgentLoop.execute_tool env ctx ts d = .ok out ∧ out ≠ "" := by
  rw [execute_tool_eq env ctx ts h]
  cases hb : AgentLoop.execBody env ctx ts d (strLower s) with
  | ok o => exact ⟨o, rfl, execBody_ok_of_ne hs hb⟩
  | error e => exact ⟨errExec (strLower s) ts e, rfl, errExec_ne _ _ _⟩

/-- The thinking event `run` emits for decision `d` at 1-indexed step `i`. -/
def thinkingEvt (i : Nat) (d : Dict) : Event :=
  Event.thinking i (pyGetD d "tool" .none) (pyGetD d "reason" (.str "Analyzing query..."))
    (thinkingParams d)

/-- The thinking events appended at one step: one event when a callback
was passed and the decision dict is truthy, none otherwise. -/
def stepEvents (cfg : LoopCfg) (i : Nat) (ctxNow : String) : List Event :=
  if cfg.hasCallback && !(cfg.engine i ctxNow).isEmpty then
    [thinkingEvt (i + 1) (cfg.engine i ctxNow)]
  else []

/-- The context after one executed tool call: unchanged on empty output,
otherwise the output plus the dashed separator is appended. -/
def ctxAfter (ctx out : String) : String :=
  if out = "" then ctx else ctx ++ out ++ dashLine

lemma ctxAfter_pfx (ctx out : String) : strPfx ctx (ctxAfter ctx out) := by
  unfold ctxAfter
  split
  · exact strPfx_refl ctx
  · exact ⟨out ++ dashLine, (String.append_assoc ctx out dashLine).symm⟩

lemma ctxAfter_of_ne (ctx : String) {out : String} (h : out ≠ "") :
    ctxAfter ctx out = ctx ++ (out ++ dashLine) := by
  rw [ctxAfter, if_neg h, String.append_assoc]

/-- Test for a `thinking_complete` event. -/
def isComplete : Event → Bool
  | .thinkingComplete _ => true
  | _ => false

lemma runStep_stop (cfg : LoopCfg) (i : Nat) (st : RunState)
    (h : pyGetD (cfg.engine i st.ctx) "tool" .none = PyVal.str "stop") :
    AgentLoop.runStep cfg i st = .halt
      { st with
        iter := i + 1
        calls := st.calls + 1
        events := st.events ++ stepEvents cfg i st.ctx ++
          (if cfg.hasCallback then [Event.thinkingComplete "Finished gathering information"]
           else []) } := by
  have hne := stopdec_isEmpty_false h
  unfold AgentLoop.runStep stepEvents thinkingEvt
  rw [if_pos h, hne]
  cases hcb : cfg.hasCallback
  · simp
  · simp

lemma runStep_next (cfg : LoopCfg) (i : Nat) (st : RunState) {out : String}
    (hNot : pyGetD (cfg.engine i st.ctx) "tool" PyVal.none ≠ PyVal.str "stop")
    (hex : AgentLoop.execute_tool cfg.env st.ctx (cfg.stepTs i) (cfg.engine i st.ctx) = .ok out) :
    AgentLoop.runStep cfg i st = .next
      { ctx := ctxAfter st.ctx out
        iter := i + 1
        events := st.events ++ stepEvents cfg i st.ctx
        calls := st.calls + 1
        trace := st.trace ++ [ctxAfter st.ctx out] } := by
  unfold AgentLoop.runStep stepEvents thinkingEvt ctxAfter
  rw [if_neg hNot, hex]
  cases hcb : cfg.hasCallback && !(cfg.engine i st.ctx).isEmpty
  · simp
  · simp

/-- Each element extends the previous one (prefix chain). -/
def chainPfx : String → List String → Prop
  | _, [] => True
  | a, b :: l => strPfx a b ∧ chainPfx b l

/-- The last element of `a :: l`. -/
def lastOf (a : String) : List String → String
  | [] => a
  | b :: l => lastOf b l

lemma chainPfx_all {a : String} : ∀ {l : List String}, chainPfx a l → ∀ x ∈ l, strPfx a x := by
  intro l
  induction l generalizing a with
  | nil => intro _ x hx; cases hx
  | cons b t ih =>
      rintro ⟨hab, hch⟩ x hx
      rcases List.mem_cons.mp hx with rfl | hx
      · exact hab
      · exact strPfx_trans hab (ih hch x hx)

lemma chainPfx_pairwise {a : String} : ∀ {l : List String},
    chainPfx a l → List.Pairwise strPfx (a :: l) := by
  intro l
  induction l generalizing a with
  | nil => intro _; simp
  | cons b t ih =>
      rintro ⟨hab, hch⟩
      refine List.Pairwise.cons ?_ (ih hch)
      intro x hx
      rcases List.mem_cons.mp hx with rfl | hx
      · exact hab
      · exact strPfx_trans hab (chainPfx_all hch x hx)

lemma chainPfx_last {a : String} : ∀ {l : List String}, chainPfx a l → strPfx a (lastOf a l) := by
  intro l
  induction l generalizing a with
  | nil => intro _; exact strPfx_refl a
  | cons b t ih => rintro ⟨hab, hch⟩; exact strPfx_trans hab (ih hch)

lemma runGo_shape (cfg : LoopCfg) : ∀ (n i : Nat) (st : RunState)
    {c : String} {it : Nat} {ev : List Event} {cl : Nat} {tr : List String},
    AgentLoop.runGo cfg n i st = .ok c it ev cl tr →
    ∃ base, c = finalizeCtx base it cfg.finalTs := by
  intro n
  induction n with
  | zero =>
      intro i st c it ev cl tr h
      unfold AgentLoop.runGo AgentLoop.finalize at h
      rw [RunOut.ok.injEq] at h
      exact ⟨st.ctx, by rw [← h.1, h.2.1]⟩
  | succ n ih =>
      intro i st c it ev cl tr h
      unfold AgentLoop.runGo at h
      cases hs : AgentLoop.runStep cfg i st with
      | halt st2 =>
          rw [hs] at h
          unfold AgentLoop.finalize at h
          rw [RunOut.ok.injEq] at h
          exact ⟨st2.ctx, by rw [← h.1, h.2.1]⟩
      | next st2 =>
          rw [hs] at h
          exact ih (i + 1) st2 h
      | fail e =>
          rw [hs] at h
          exact absurd h (by simp)

lemma chainPfx_snoc {x : String} : ∀ {l : List String} {a : String},
    chainPfx a l → strPfx (lastOf a l) x → chainPfx a (l ++ [x]) := by
  intro l
  induction l with
  | nil => intro a _ hx; exact ⟨hx, trivial⟩
  | cons b t ih => intro a h hx; exact ⟨h.1, ih h.2 hx⟩

lemma runGo_chain (cfg : LoopCfg)
    (hTool : ∀ i c, ∃ s, pyGetD (cfg.engine i c) "tool" (PyVal.str "") = PyVal.str s) :
    ∀ (n i : Nat) (st : RunState), ∃ Δ it ev cl,
      AgentLoop.runGo cfg n i st =
        .ok (finalizeCtx (lastOf st.ctx Δ) it cfg.finalTs) it ev cl (st.trace ++ Δ) ∧
      chainPfx st.ctx Δ := by
  intro n
  induction n with
  | zero =>
      intro i st
      refine ⟨[], st.iter, st.events, st.calls, ?_, trivial⟩
      unfold AgentLoop.runGo AgentLoop.finalize
      simp [lastOf]
  | succ n ih =>
      intro i st
      by_cases hstop : pyGetD (cfg.engine i st.ctx) "tool" PyVal.none = PyVal.str "stop"
      · refine ⟨[], i + 1,
          st.events ++ stepEvents cfg i st.ctx ++
            (if cfg.hasCallback then [Event.thinkingComplete "Finished gathering information"]
             else []),
          st.calls + 1, ?_, trivial⟩
        unfold AgentLoop.runGo
        rw [runStep_stop cfg i st hstop]
        unfold AgentLoop.finalize
        simp [lastOf]
      · obtain ⟨s, hs⟩ := hTool i st.ctx
        obtain ⟨out, hex⟩ := execute_tool_ok cfg.env st.ctx (cfg.stepTs i) hs
        have hstep := runStep_next cfg i st hstop hex
        obtain ⟨Δ, it, ev, cl, hgo, hch⟩ := ih (i + 1)
          { ctx := ctxAfter st.ctx out, iter := i + 1,
            events := st.events ++ stepEvents cfg i st.ctx, calls := st.calls + 1,
            trace := st.trace ++ [ctxAfter st.ctx out] }
        refine ⟨ctxAfter st.ctx out :: Δ, it, ev, cl, ?_, ctxAfter_pfx st.ctx out, hch⟩
        unfold AgentLoop.runGo
        rw [hstep]
        simpa [lastOf, List.append_assoc] using hgo

lemma countP_stepEvents (cfg : LoopCfg) (i : Nat) (c : String) :
    (stepEvents cfg i c).countP isComplete = 0 := by
  unfold stepEvents
  split
  · simp [thinkingEvt, isComplete, List.countP_cons]
  · simp

lemma runGo_firstStop (cfg : LoopCfg) (hcb : cfg.hasCallback = true) :
    ∀ (j n i : Nat) (st : RunState), j < n →
    (∀ t, t < j → ∀ c, ∃ s, pyGetD (cfg.engine (i + t) c) "tool" (PyVal.str "") = PyVal.str s ∧
        strLower s ≠ "stop") →
    (∀ c, pyGetD (cfg.engine (i + j) c) "tool" PyVal.none = PyVal.str "stop") →
    ∃ blocks ev tr,
      AgentLoop.runGo cfg n i st =
        .ok (finalizeCtx (st.ctx ++ strConcat blocks) (i + j + 1) cfg.finalTs) (i + j + 1)
          (st.events ++ ev) (st.calls + (j + 1)) tr ∧
      blocks.length = j ∧ (∀ b ∈ blocks, b ≠ "" ∧ ∃ x, b = x ++ dashLine) ∧
      ev.countP isComplete = 1 := by
  intro j
  induction j with
  | zero =>
      intro n i st hn hNS hStop
      obtain ⟨m, rfl⟩ : ∃ m, n = m + 1 := ⟨n - 1, by omega⟩
      have hstop := hStop st.ctx
      rw [Nat.add_zero] at hstop
      refine ⟨[], stepEvents cfg i st.ctx ++
        [Event.thinkingComplete "Finished gathering information"], st.trace, ?_,
        rfl, by simp, ?_⟩
      · unfold AgentLoop.runGo
        rw [runStep_stop cfg i st hstop]
        unfold AgentLoop.finalize
        rw [hcb]
        simp [strConcat, List.append_assoc]
      · rw [List.countP_append, countP_stepEvents]
        simp [List.countP_cons, isComplete]
  | succ j ih =>
      intro n i st hn hNS hStop
      obtain ⟨m, rfl⟩ : ∃ m, n = m + 1 := ⟨n - 1, by omega⟩
      obtain ⟨s, hs, hlow⟩ := hNS 0 (Nat.succ_pos j) st.ctx
      rw [Nat.add_zero] at hs
      have hNot := rawTool_ne_stop hs hlow
      obtain ⟨out, hex, hout⟩ := execute_tool_ok_ne cfg.env st.ctx (cfg.stepTs i) hs hlow
      have hstep := runStep_next cfg i st hNot hex
      have hNS2 : ∀ t, t < j → ∀ c, ∃ s, pyGetD (cfg.engine (i + 1 + t) c) "tool"
          (PyVal.str "") = PyVal.str s ∧ strLower s ≠ "stop" := by
        intro t ht c
        have h2 := hNS (t + 1) (by omega) c
        rwa [show i + (t + 1) = i + 1 + t by omega] at h2
      have hStop2 : ∀ c, pyGetD (cfg.engine (i + 1 + j) c) "tool" PyVal.none =
          PyVal.str "stop" := by
        intro c
        have h2 := hStop c
        rwa [show i + (j + 1) = i + 1 + j by omega] at h2
      obtain ⟨blocks, ev, tr, hgo, hlen, hne, hcnt⟩ := ih m (i + 1)
        { ctx := ctxAfter st.ctx out, iter := i + 1,
          events := st.events ++ stepEvents cfg i st.ctx, calls := st.calls + 1,
          trace := st.trace ++ [ctxAfter st.ctx out] } (by omega) hNS2 hStop2
      refine ⟨(out ++ dashLine) :: blocks, stepEvents cfg i st.ctx ++ ev, tr, ?_,
        by simp [hlen], ?_, ?_⟩
      · unfold AgentLoop.runGo
        rw [hstep]
        rw [ctxAfter_of_ne st.ctx hout]
        rw [ctxAfter_of_ne st.ctx hout] at hgo
        have e1 : st.ctx ++ (out ++ dashLine) ++ strConcat blocks =
            st.ctx ++ strConcat ((out ++ dashLine) :: blocks) := by
          rw [String.append_assoc]
          rfl
        have e2 : i + 1 + j + 1 = i + (j + 1) + 1 := by omega
        have e3 : st.calls + 1 + (j + 1) = st.calls + (j + 1 + 1) := by omega
        rw [e1, e2, e3] at hgo
        simpa [List.append_assoc] using hgo
      · intro b hb
        rcases List.mem_cons.mp hb with rfl | hb
        · exact ⟨append_ne_empty out dashLine hout, out, rfl⟩
        · exact hne b hb
      · rw [List.countP_append, countP_stepEvents, hcnt]

lemma runGo_noStop (cfg : LoopCfg)
    (h : ∀ i c, (∃ s, pyGetD (cfg.engine i c) "tool" (PyVal.str "") = PyVal.str s) ∧
        pyGetD (cfg.engine i c) "tool" PyVal.none ≠ PyVal.str "stop") :
    ∀ (n i : Nat) (st : RunState), 0 < n → ∃ c ev tr,
      AgentLoop.runGo cfg n i st = .ok c (i + n) ev (st.calls + n) tr := by
  intro n
  induction n with
  | zero => intro i st h0; exact absurd h0 (by omega)
  | succ n ih =>
      intro i st _
      obtain ⟨⟨s, hs⟩, hNot⟩ := h i st.ctx
      obtain ⟨out, hex⟩ := execute_tool_ok cfg.env st.ctx (cfg.stepTs i) hs
      have hstep := runStep_next cfg i st hNot hex
      rcases Nat.eq_zero_or_pos n with rfl | hpos
      · refine ⟨finalizeCtx (ctxAfter st.ctx out) (i + 1) cfg.finalTs,
          st.events ++ stepEvents cfg i st.ctx, st.trace ++ [ctxAfter st.ctx out], ?_⟩
        unfold AgentLoop.runGo
        rw [hstep]
        unfold AgentLoop.runGo AgentLoop.finalize
        rfl
      · obtain ⟨c, ev, tr, hgo⟩ := ih (i + 1)
          { ctx := ctxAfter st.ctx out, iter := i + 1,
            events := st.events ++ stepEvents cfg i st.ctx, calls := st.calls + 1,
            trace := st.trace ++ [ctxAfter st.ctx out] } hpos
        refine ⟨c, ev, tr, ?_⟩
        unfold AgentLoop.runGo
        rw [hstep]
        rw [show i + (n + 1) = i + 1 + n by omega,
          show st.calls + (n + 1) = st.calls + 1 + n by omega]
        simpa using hgo

lemma strPfx_append_left {a b : String} (c : String) (h : strPfx a b) : strPfx a (b ++ c) :=
  strPfx_trans h (strPfx_append b c)

lemma metaHead_pfx (base : String) (k : Nat) : strPfx base (metaHead base k) := by
  unfold metaHead
  repeat apply strPfx_append_left
  exact strPfx_refl base

lemma finalizeCtx_pfx (base : String) (k : Nat) (ts : String) :
    strPfx base (finalizeCtx base k ts) := by
  unfold finalizeCtx
  repeat apply strPfx_append_left
  exact strPfx_refl base

/-- Strict ordering of dict items by key. -/
def keyLT (p q : String × PyVal) : Prop := p.1 < q.1

instance : IsAntisymm (String × PyVal) keyLT :=
  ⟨fun _ _ h1 h2 => absurd h2 (lt_asymm h1)⟩

lemma insertionSort_eq_of_perm {p1 p2 : Dict} (hperm : p1.Perm p2)
    (hnd : (p1.map Prod.fst).Nodup) :
    List.insertionSort keyLE p1 = List.insertionSort keyLE p2 := by
  have hperm1 := List.perm_insertionSort keyLE p1
  have hperm2 := List.perm_insertionSort keyLE p2
  have hp : (List.insertionSort keyLE p1).Perm (List.insertionSort keyLE p2) :=
    hperm1.trans (hperm.trans hperm2.symm)
  have hnd1 : ((List.insertionSort keyLE p1).map Prod.fst).Nodup :=
    ((hperm1.map Prod.fst).nodup_iff).mpr hnd
  have hnd2 : ((List.insertionSort keyLE p2).map Prod.fst).Nodup :=
    ((hperm2.map Prod.fst).nodup_iff).mpr (((hperm.map Prod.fst).nodup_iff).mp hnd)
  have hlt1 : List.Sorted keyLT (List.insertionSort keyLE p1) := by
    have hne := (List.pairwise_map).mp hnd1
    exact ((List.sorted_insertionSort keyLE p1).and hne).imp
      (fun h => lt_of_le_of_ne h.1 h.2)
  have hlt2 : List.Sorted keyLT (List.insertionSort keyLE p2) := by
    have hne := (List.pairwise_map).mp hnd2
    exact ((List.sorted_insertionSort keyLE p2).and hne).imp
      (fun h => lt_of_le_of_ne h.1 h.2)
  exact List.eq_of_perm_of_sorted hp hlt1 hlt2

/-! ### Shared concrete fixtures used by witnesses and counterexamples -/

/-- Tool collaborators that always return an empty payload. -/
def trivEnv : RunEnv :=
  ⟨fun _ _ _ => .ok [], fun _ _ _ => .ok [], fun _ _ => .ok []⟩

/-- Concrete pure helpers: identity normalisation and hash, `pyFmt`
rendering. -/
def fnsW : PureFns := ⟨fun s => s, fun s => s, pyFmt⟩

/-- A concrete geocoding result for Paris. -/
def geoParis : GeoResult := ⟨some "Paris", 48, 2, some "Ile-de-France", some "France"⟩

/-- A weather world in which Paris geocodes and the forecast succeeds. -/
def wenvA : WeatherEnv :=
  ⟨fun _ => .ok [geoParis], fun _ _ => .ok (some ⟨.num 20, .num 10, .num 1⟩)⟩

/-- A later weather world in which everything upstream fails. -/
def wenvB : WeatherEnv := ⟨fun _ => .ok [], fun _ _ => .error "connection reset"⟩

/-- The payload the first Paris call produces under `wenvA`. -/
def parisOut : Dict :=
  [("city", .str "Paris, Ile-de-France, France"), ("latitude", .num 48),
   ("longitude", .num 2), ("temperature_c", .num 20), ("windspeed_kmh", .num 10),
   ("conditions_code", .num 1)]

/-- The cache key of the Paris call. -/
def parisKey : String := weatherKey fnsW "Paris" Option.none Option.none

/-- A wikipedia world with no search results. -/
def wikiEnvA : WikiEnv :=
  ⟨fun _ => .ok [], fun _ => .pageError, fun _ _ => .error (.generic "offline")⟩

/-- A later wikipedia world in which search itself raises. -/
def wikiEnvB : WikiEnv :=
  ⟨fun _ => .error "offline", fun _ => .pageError, fun _ _ => .error (.generic "offline")⟩

/-- The payload the first Tokyo call produces under `wikiEnvA`. -/
def tokyoOut : Dict := wikiNoResults "Tokyo"

/-- The cache key of the Tokyo call. -/
def tokyoKey : String := wikiKey fnsW "Tokyo" (.num 3)

/-! ### C9 -/

/-- C9: the cache fingerprint is deterministic.  For every hash oracle and
value renderer, every prefix, and any two payload dicts that are equal as
mappings (the same key-value pairs, with distinct keys, in any insertion
order), `key_for` returns the same key string.  (Two runs on the same
input agree because `key_for` is a pure function.) -/
theorem c9_key_deterministic (fns : PureFns) (pre : String) (p1 p2 : Dict)
    (hperm : p1.Perm p2) (hnd : (p1.map Prod.fst).Nodup) :
    key_for fns pre p1 = key_for fns pre p2 := by
  unfold key_for jsonDumpsSorted
  rw [insertionSort_eq_of_perm hperm hnd]

/-- Witness for C9: the weather cache parameters in two insertion orders
produce the same key. -/
theorem c9_key_deterministic_witness :
    ([("city", PyVal.str "Paris"), ("state", PyVal.str "ON")] : Dict).Perm
      [("state", PyVal.str "ON"), ("city", PyVal.str "Paris")] ∧
    (([("city", PyVal.str "Paris"), ("state", PyVal.str "ON")] : Dict).map Prod.fst).Nodup ∧
    key_for fnsW "weather" [("city", PyVal.str "Paris"), ("state", PyVal.str "ON")] =
      key_for fnsW "weather" [("state", PyVal.str "ON"), ("city", PyVal.str "Paris")] :=
  ⟨by decide, by decide,
   c9_key_deterministic fnsW "weather" _ _ (by decide) (by decide)⟩

/-! ### C5 -/

/-- The failure modes of the decision step: the model call raised, the
reply has no opening (or no closing) brace, or the extracted slice does
not parse as JSON. -/
def decisionFailure (parse : String → Option Dict) (resp : Except String String) : Prop :=
  (∃ e, resp = .error e) ∨
  (∃ t, resp = .ok t ∧ ((stripWs t).data.contains openBraceChar = false ∨
      (stripWs t).data.contains closeBraceChar = false)) ∨
  (∃ t, resp = .ok t ∧ parse (extractBraced (stripWs t)) = Option.none)

/-- C5: `choose_tool_result` always returns a decision dict, and on every
failure path — the model call raising, a reply without braces, or an
unparseable brace-delimited slice — it returns the default stop decision
rather than propagating an exception. -/
theorem c5_decision_default_stop (parse : String → Option Dict)
    (resp : Except String String) (h : decisionFailure parse resp) :
    AgentLoop.choose_tool_result parse resp = chooseDefaultStop := by
  unfold AgentLoop.choose_tool_result
  rcases h with ⟨e, rfl⟩ | ⟨t, rfl, hbr⟩ | ⟨t, rfl, hp⟩
  · rfl
  · have hc : ((stripWs t).data.contains openBraceChar &&
        (stripWs t).data.contains closeBraceChar) = false := by
      rcases hbr with h | h
      · rw [h, Bool.false_and]
      · rw [h, Bool.and_false]
    simp only [hc, Bool.false_eq_true, if_false]
  · by_cases hc : ((stripWs t).data.contains openBraceChar &&
        (stripWs t).data.contains closeBraceChar) = true
    · simp only [hc, if_true, hp]
    · rw [Bool.not_eq_true] at hc
      simp only [hc, Bool.false_eq_true, if_false]

/-- Witness for C5: a braceless reply with a parser that always fails
yields the default stop decision. -/
theorem c5_decision_default_stop_witness :
    decisionFailure (fun _ => Option.none) (.ok "Sure, I will look that up.") ∧
    AgentLoop.choose_tool_result (fun _ => Option.none) (.ok "Sure, I will look that up.") =
      chooseDefaultStop :=
  ⟨Or.inr (Or.inl ⟨"Sure, I will look that up.", rfl, by decide⟩),
   c5_decision_default_stop _ _ (Or.inr (Or.inl ⟨"Sure, I will look that up.", rfl, by decide⟩))⟩

/-! ### C4 -/

/-- Counterexample to C4 as stated: `convert` upper-cases the currency
codes before echoing them, so a lower-case `from` argument is not echoed
unchanged. -/
theorem c4_counterexample :
    dictGet (convert 100 "usd" "eur" (.error "request timed out")) "from" ≠
      some (PyVal.str "usd") ∧
    dictGet (convert 100 "usd" "eur" (.error "request timed out")) "from" =
      some (PyVal.str "USD") := by
  constructor
  · decide
  · decide

/-- C4 (amended): `convert` echoes `amount` unchanged and echoes `from`
and `to` upper-cased, on every path; `get_weather`'s successful payload
reports the geocoding-derived display name of the chosen result, not the
requested city. -/
theorem c4_echo_amended :
    (∀ (amount : Rat) (src dst : String) (resp : Except String CurrencyResp),
      dictGet (convert amount src dst resp) "amount" = some (.num amount) ∧
      dictGet (convert amount src dst resp) "from" = some (.str (strUpper src)) ∧
      dictGet (convert amount src dst resp) "to" = some (.str (strUpper dst))) ∧
    (∀ (fns : PureFns) (env : WeatherEnv) (cache : Cache) (city : String)
        (state country : Option String) (r : GeoResult) (w : Option CurrentWeather),
      cache_get cache (weatherKey fns city state country) = Option.none →
      geoLoop env (optTruthy country || optTruthy state) state country Option.none
        (searchQueries (fns.normalizeCity city) state country) = .ok (some r) →
      env.forecast r.latitude r.longitude = .ok w →
      get_weather fns env cache city state country =
        .ok ([("city", .str (locationName (fns.normalizeCity city) r)),
              ("latitude", .num r.latitude), ("longitude", .num r.longitude),
              ("temperature_c", cwField w (fun cw => cw.temperature)),
              ("windspeed_kmh", cwField w (fun cw => cw.windspeed)),
              ("conditions_code", cwField w (fun cw => cw.weathercode))],
          cache_set cache (weatherKey fns city state country)
            [("city", .str (locationName (fns.normalizeCity city) r)),
             ("latitude", .num r.latitude), ("longitude", .num r.longitude),
             ("temperature_c", cwField w (fun cw => cw.temperature)),
             ("windspeed_kmh", cwField w (fun cw => cw.windspeed)),
             ("conditions_code", cwField w (fun cw => cw.weathercode))])) := by
  constructor
  · intro amount src dst resp
    rcases resp with e | r
    · refine ⟨?_, ?_, ?_⟩ <;> simp [convert, dictGet]
    · rcases r with ⟨rates, date⟩
      rcases rates with _ | rates
      · refine ⟨?_, ?_, ?_⟩ <;> simp [convert, dictGet]
      · cases hl : lookupRate rates (strUpper dst) with
        | some rate => refine ⟨?_, ?_, ?_⟩ <;> simp [convert, dictGet, hl]
        | none => refine ⟨?_, ?_, ?_⟩ <;> simp [convert, dictGet, hl]
  · intro fns env cache city state country r w hcache hgeo hfc
    unfold get_weather weatherKey
    unfold weatherKey at hcache
    dsimp only
    rw [hcache, hgeo]
    dsimp only
    rw [hfc]

/-- Witness for C4 (amended): the currency echo at a concrete call, and a
concrete successful Paris weather call. -/
theorem c4_echo_witness :
    dictGet (convert 100 "usd" "eur" (.error "down")) "from" =
      some (PyVal.str (strUpper "usd")) ∧
    get_weather fnsW wenvA [] "Paris" Option.none Option.none =
      .ok ([("city", .str (locationName (fnsW.normalizeCity "Paris") geoParis)),
            ("latitude", .num geoParis.latitude), ("longitude", .num geoParis.longitude),
            ("temperature_c", cwField (some ⟨.num 20, .num 10, .num 1⟩) (fun cw => cw.temperature)),
            ("windspeed_kmh", cwField (some ⟨.num 20, .num 10, .num 1⟩) (fun cw => cw.windspeed)),
            ("conditions_code", cwField (some ⟨.num 20, .num 10, .num 1⟩) (fun cw => cw.weathercode))],
        cache_set [] (weatherKey fnsW "Paris" Option.none Option.none)
          [("city", .str (locationName (fnsW.normalizeCity "Paris") geoParis)),
           ("latitude", .num geoParis.latitude), ("longitude", .num geoParis.longitude),
           ("temperature_c", cwField (some ⟨.num 20, .num 10, .num 1⟩) (fun cw => cw.temperature)),
           ("windspeed_kmh", cwField (some ⟨.num 20, .num 10, .num 1⟩) (fun cw => cw.windspeed)),
           ("conditions_code", cwField (some ⟨.num 20, .num 10, .num 1⟩) (fun cw => cw.weathercode))]) :=
  ⟨(c4_echo_amended.1 100 "usd" "eur" (.error "down")).2.1,
   c4_echo_amended.2 fnsW wenvA [] "Paris" Option.none Option.none geoParis
     (some ⟨.num 20, .num 10, .num 1⟩) rfl rfl rfl⟩

/-! ### C7 -/

/-- Counterexample to C7 as stated: the currency tool consults no cache at
all (its signature has no cache), so two calls with identical name and
arguments track their own upstream responses and need not return
bit-identical payloads. -/
theorem c7_counterexample :
    convert 100 "USD" "EUR" (.ok ⟨some [("EUR", 9/10)], some "2024-01-01"⟩) ≠
      convert 100 "USD" "EUR" (.ok ⟨some [("EUR", 4/5)], some "2024-01-02"⟩) := by
  intro h
  have h1 : dictGet (convert 100 "USD" "EUR"
      (.ok ⟨some [("EUR", 9/10)], some "2024-01-01"⟩)) "date" =
      some (PyVal.str "2024-01-01") := by decide
  rw [h] at h1
  exact absurd h1 (by decide)

/-- C7 (amended): the weather and wikipedia tools are idempotent and
cacheable by their `(tool name, normalized arguments)` key: once a first
call has primed the cache with its payload, a repeated call with identical
arguments returns that bit-identical payload (and leaves the cache
unchanged) no matter how the upstream world has changed.  The currency
tool performs no caching: its payload is recomputed from each call's own
upstream response. -/
theorem c7_idempotence_amended :
    (∀ (fns : PureFns) (env1 env2 : WeatherEnv) (cache0 cache1 : Cache) (out1 : Dict)
        (city : String) (state country : Option String),
      get_weather fns env1 cache0 city state country = .ok (out1, cache1) →
      cache_get cache1 (weatherKey fns city state country) = some out1 →
      get_weather fns env2 cache1 city state country = .ok (out1, cache1)) ∧
    (∀ (fns : PureFns) (env1 env2 : WikiEnv) (cache0 cache1 : Cache) (out1 : Dict)
        (query : String) (sentences : PyVal),
      search_wikipedia fns env1 cache0 query sentences = (out1, cache1) →
      cache_get cache1 (wikiKey fns query sentences) = some out1 →
      search_wikipedia fns env2 cache1 query sentences = (out1, cache1)) ∧
    (∀ (amount : Rat) (src dst : String) (rates : List (String × Rat))
        (dt : Option String) (rate : Rat),
      lookupRate rates (strUpper dst) = some rate →
      convert amount src dst (.ok ⟨some rates, dt⟩) =
        [("amount", .num amount), ("from", .str (strUpper src)),
         ("to", .str (strUpper dst)), ("result", .num (round2 (amount * rate))),
         ("date", optStrVal dt)]) := by
  refine ⟨?_, ?_, ?_⟩
  · intro fns env1 env2 cache0 cache1 out1 city state country _ hget
    unfold get_weather
    unfold weatherKey at hget
    dsimp only
    rw [hget]
  · intro fns env1 env2 cache0 cache1 out1 query sentences _ hget
    unfold search_wikipedia searchWikipediaGo
    dsimp only
    rw [hget]
  · intro amount src dst rates dt rate hl
    unfold convert
    dsimp only
    rw [hl]

/-- Witness for C7 (amended): a successful Paris weather call and a
no-results Tokyo wikipedia call prime the cache; repeated calls in a
changed (failing) upstream world return the identical payloads, and a
concrete currency call's payload is computed from its own response. -/
theorem c7_idempotence_witness :
    get_weather fnsW wenvA [] "Paris" Option.none Option.none =
      .ok (parisOut, [(parisKey, parisOut)]) ∧
    get_weather fnsW wenvB [(parisKey, parisOut)] "Paris" Option.none Option.none =
      .ok (parisOut, [(parisKey, parisOut)]) ∧
    search_wikipedia fnsW wikiEnvA [] "Tokyo" (.num 3) =
      (tokyoOut, [(tokyoKey, tokyoOut)]) ∧
    search_wikipedia fnsW wikiEnvB [(tokyoKey, tokyoOut)] "Tokyo" (.num 3) =
      (tokyoOut, [(tokyoKey, tokyoOut)]) ∧
    convert 100 "usd" "eur" (.ok ⟨some [("EUR", 9/10)], some "2024-01-01"⟩) =
      [("amount", .num 100), ("from", .str (strUpper "usd")),
       ("to", .str (strUpper "eur")), ("result", .num (round2 (100 * (9/10)))),
       ("date", optStrVal (some "2024-01-01"))] :=
  ⟨rfl,
   c7_idempotence_amended.1 fnsW wenvA wenvB [] [(parisKey, parisOut)] parisOut
     "Paris" Option.none Option.none rfl rfl,
   rfl,
   c7_idempotence_amended.2.1 fnsW wikiEnvA wikiEnvB [] [(tokyoKey, tokyoOut)] tokyoOut
     "Tokyo" (.num 3) rfl (by decide),
   c7_idempotence_amended.2.2 100 "usd" "eur" [("EUR", 9/10)] (some "2024-01-01")
     (9/10) rfl⟩

/-! ### C3 -/

/-- Counterexample to C3 as stated: a decision whose `tool` value is the
JSON number `3` makes `execute_tool` raise an `AttributeError` before the
`try` block (`tool_decision.get("tool", "").lower()` on a non-string), and
that exception reaches the caller. -/
theorem c3_counterexample :
    AgentLoop.execute_tool trivEnv "" "2024-01-01 00:00:00" [("tool", PyVal.num 3)] =
      .error "AttributeError" :=
  rfl

/-- The decision's dispatched tool call raised exception `e`. -/
def toolRaises (env : RunEnv) (d : Dict) (tn : String) (e : String) : Prop :=
  (tn = "weather" ∧ env.weather (pyGetD d "city" (.str "")) (pyGetD d "state" .none)
      (pyGetD d "country" .none) = .error e) ∨
  (tn = "currency" ∧ env.currency (pyGetD d "amount" (.num 1)) (pyGetD d "from" (.str "USD"))
      (pyGetD d "to" (.str "EUR")) = .error e) ∨
  (tn = "wikipedia" ∧ env.wikipedia (pyGetD d "query" (.str ""))
      (pyGetD d "sentences" (.num 3)) = .error e)

/-- C3 (amended): for every decision whose `tool` value is a string (or
absent, defaulting to `""`), `execute_tool` returns a result string and
never raises; an exception thrown by the dispatched tool call inside a
branch is caught and converted into the error string carrying the
(lowered) tool name and the timestamp. -/
theorem c3_executor_total_amended (env : RunEnv) (ctx ts : String) (d : Dict) (s : String)
    (h : pyGetD d "tool" (.str "") = PyVal.str s) :
    (∃ out, AgentLoop.execute_tool env ctx ts d = .ok out) ∧
    (∀ e, toolRaises env d (strLower s) e →
      AgentLoop.execute_tool env ctx ts d = .ok (errExec (strLower s) ts e)) := by
  refine ⟨execute_tool_ok env ctx ts h, ?_⟩
  intro e he
  rw [execute_tool_eq env ctx ts h]
  have hb : AgentLoop.execBody env ctx ts d (strLower s) = .error e := by
    rcases he with ⟨ht, hw⟩ | ⟨ht, hw⟩ | ⟨ht, hw⟩
    · rw [ht]
      unfold AgentLoop.execBody
      rw [if_pos rfl, hw]
    · rw [ht]
      unfold AgentLoop.execBody
      rw [if_neg (by decide), if_pos rfl, hw]
    · rw [ht]
      unfold AgentLoop.execBody
      rw [if_neg (by decide), if_neg (by decide), if_pos rfl, hw]
  rw [hb]

/-- Tool collaborators whose weather call raises. -/
def envRaise : RunEnv :=
  ⟨fun _ _ _ => .error "boom", fun _ _ _ => .ok [], fun _ _ => .ok []⟩

/-- Witness for C3 (amended): a `"Weather"` decision against a raising
weather collaborator returns the formatted error string. -/
theorem c3_executor_total_witness :
    pyGetD [("tool", PyVal.str "Weather")] "tool" (PyVal.str "") = PyVal.str "Weather" ∧
    toolRaises envRaise [("tool", PyVal.str "Weather")] (strLower "Weather") "boom" ∧
    AgentLoop.execute_tool envRaise "" "T" [("tool", PyVal.str "Weather")] =
      .ok (errExec (strLower "Weather") "T" "boom") :=
  ⟨rfl, Or.inl ⟨by decide, rfl⟩,
   (c3_executor_total_amended envRaise "" "T" [("tool", PyVal.str "Weather")] "Weather"
     rfl).2 "boom" (Or.inl ⟨by decide, rfl⟩)⟩

/-! ### C6 -/

/-- C6: a decision whose (lowered) tool name is outside the recognized set
yields a non-empty unknown-tool message that names the unrecognized tool,
and the loop iteration continues (`.next`) rather than terminating or
raising. -/
theorem c6_unknown_tool (cfg : LoopCfg) (i : Nat) (st : RunState) (s : String)
    (hTool : pyGetD (cfg.engine i st.ctx) "tool" (PyVal.str "") = PyVal.str s)
    (hUnk : strLower s ∉ (["weather", "currency", "wikipedia", "get_context", "stop"] :
      List String)) :
    AgentLoop.execute_tool cfg.env st.ctx (cfg.stepTs i) (cfg.engine i st.ctx) =
      .ok (unknownBlock (strLower s) (cfg.stepTs i)) ∧
    unknownBlock (strLower s) (cfg.stepTs i) ≠ "" ∧
    (∃ pre post, unknownBlock (strLower s) (cfg.stepTs i) = pre ++ strLower s ++ post) ∧
    AgentLoop.runStep cfg i st = .next
      { ctx := ctxAfter st.ctx (unknownBlock (strLower s) (cfg.stepTs i))
        iter := i + 1
        events := st.events ++ stepEvents cfg i st.ctx
        calls := st.calls + 1
        trace := st.trace ++ [ctxAfter st.ctx (unknownBlock (strLower s) (cfg.stepTs i))] } := by
  simp only [List.mem_cons, List.not_mem_nil, or_false, not_or] at hUnk
  obtain ⟨h1, h2, h3, h4, h5⟩ := hUnk
  have hex : AgentLoop.execute_tool cfg.env st.ctx (cfg.stepTs i) (cfg.engine i st.ctx) =
      .ok (unknownBlock (strLower s) (cfg.stepTs i)) := by
    rw [execute_tool_eq cfg.env st.ctx (cfg.stepTs i) hTool]
    have hb : AgentLoop.execBody cfg.env st.ctx (cfg.stepTs i) (cfg.engine i st.ctx)
        (strLower s) = .ok (unknownBlock (strLower s) (cfg.stepTs i)) := by
      unfold AgentLoop.execBody
      rw [if_neg h1, if_neg h2, if_neg h3, if_neg h4, if_neg h5]
    rw [hb]
  refine ⟨hex, unknownBlock_ne _ _, ?_, ?_⟩
  · refine ⟨"\n+ Unknown tool '", "' requested at " ++ cfg.stepTs i ++ "\n", ?_⟩
    unfold unknownBlock
    simp [String.append_assoc]
  · exact runStep_next cfg i st (rawTool_ne_stop hTool h5) hex

/-- Witness for C6: a `"teleport"` decision at the initial state. -/
def cfgUnknown : LoopCfg :=
  { env := trivEnv, engine := fun _ _ => [("tool", PyVal.str "teleport")],
    stepTs := fun _ => "T", finalTs := "T", hasCallback := true, maxIterations := 10 }

theorem c6_unknown_tool_witness :
    pyGetD (cfgUnknown.engine 0 (seedCtx "q")) "tool" (PyVal.str "") =
      PyVal.str "teleport" ∧
    strLower "teleport" ∉ (["weather", "currency", "wikipedia", "get_context", "stop"] :
      List String) ∧
    AgentLoop.runStep cfgUnknown 0 ⟨seedCtx "q", 0, [], 0, []⟩ = .next
      { ctx := ctxAfter (seedCtx "q") (unknownBlock (strLower "teleport") "T")
        iter := 1
        events := [] ++ stepEvents cfgUnknown 0 (seedCtx "q")
        calls := 1
        trace := [] ++ [ctxAfter (seedCtx "q") (unknownBlock (strLower "teleport") "T")] } :=
  ⟨rfl, by decide,
   (c6_unknown_tool cfgUnknown 0 ⟨seedCtx "q", 0, [], 0, []⟩ "teleport" rfl (by decide)).2.2.2⟩

/-! ### C2 -/

/-- A decision engine that always returns `\x7b"tool": 3\x7d`. -/
def cfgIntTool : LoopCfg :=
  { env := trivEnv, engine := fun _ _ => [("tool", PyVal.num 3)],
    stepTs := fun _ => "T", finalTs := "T", hasCallback := false, maxIterations := 10 }

/-- Counterexample to C2 as stated: with `max_iterations = 10` and an
engine that never returns a stop decision (its `tool` value is the JSON
number `3`), the run raises an `AttributeError` out of `execute_tool` at
the first step instead of performing 10 decision cycles and returning a
Context. -/
theorem c2_counterexample :
    (∀ i c, pyGetD (cfgIntTool.engine i c) "tool" PyVal.none ≠ PyVal.str "stop") ∧
    AgentLoop.run cfgIntTool "q" = RunOut.err "AttributeError" :=
  ⟨fun _ _ => by
    show pyGetD [("tool", PyVal.num 3)] "tool" PyVal.none ≠ PyVal.str "stop"
    decide,
   rfl⟩

/-- C2 (amended): for every step bound `N` and every decision engine that
never returns a stop decision and whose decisions' `tool` values are
strings (or absent), the run performs exactly `N` decision cycles
(`calls = N`, `iteration_count = N`) and then returns a Context. -/
theorem c2_exhaustion_amended (cfg : LoopCfg) (q : String)
    (h : ∀ i c, (∃ s, pyGetD (cfg.engine i c) "tool" (PyVal.str "") = PyVal.str s) ∧
        pyGetD (cfg.engine i c) "tool" PyVal.none ≠ PyVal.str "stop") :
    ∃ ctx ev tr, AgentLoop.run cfg q =
      .ok ctx cfg.maxIterations ev cfg.maxIterations tr := by
  rcases Nat.eq_zero_or_pos cfg.maxIterations with h0 | hpos
  · refine ⟨finalizeCtx (seedCtx q) 0 cfg.finalTs, [], [], ?_⟩
    unfold AgentLoop.run
    rw [h0]
    unfold AgentLoop.runGo AgentLoop.finalize
    rfl
  · obtain ⟨c, ev, tr, hgo⟩ := runGo_noStop cfg h cfg.maxIterations 0
      ⟨seedCtx q, 0, [], 0, []⟩ hpos
    exact ⟨c, ev, tr, by simpa [AgentLoop.run] using hgo⟩

/-- An engine that always asks for the weather. -/
def cfgWeatherLoop : LoopCfg :=
  { env := trivEnv,
    engine := fun _ _ => [("tool", PyVal.str "weather"), ("city", PyVal.str "Rome")],
    stepTs := fun _ => "T", finalTs := "T", hasCallback := false, maxIterations := 2 }

/-- Witness for C2 (amended): a never-stopping engine with bound 2 runs
exactly 2 cycles and returns. -/
theorem c2_exhaustion_witness :
    (∀ i c, (∃ s, pyGetD (cfgWeatherLoop.engine i c) "tool" (PyVal.str "") = PyVal.str s) ∧
        pyGetD (cfgWeatherLoop.engine i c) "tool" PyVal.none ≠ PyVal.str "stop") ∧
    ∃ ctx ev tr, AgentLoop.run cfgWeatherLoop "q" =
      .ok ctx cfgWeatherLoop.maxIterations ev cfgWeatherLoop.maxIterations tr :=
  ⟨fun _ _ => ⟨⟨"weather", rfl⟩, by
      show pyGetD [("tool", PyVal.str "weather"), ("city", PyVal.str "Rome")] "tool"
        PyVal.none ≠ PyVal.str "stop"
      decide⟩,
   c2_exhaustion_amended cfgWeatherLoop "q" (fun _ _ => ⟨⟨"weather", rfl⟩, by
     show pyGetD [("tool", PyVal.str "weather"), ("city", PyVal.str "Rome")] "tool"
       PyVal.none ≠ PyVal.str "stop"
     decide⟩)⟩

/-! ### C8 -/

/-- C8: the Context is append-only.  For every run whose decisions carry
string (or absent) tool values, the run returns a Context; the seed (the
original query line plus the delimiter line) is a prefix of it; every
intermediate context value is a prefix of every later one (including the
final value); and the returned value ends with the trailing metadata block
(`finalizeCtx` appends the closing delimiter, step count, size and
timestamp lines). -/
theorem c8_context_append_only (cfg : LoopCfg) (q : String)
    (hTool : ∀ i c, ∃ s, pyGetD (cfg.engine i c) "tool" (PyVal.str "") = PyVal.str s) :
    ∃ ctx it ev cl tr,
      AgentLoop.run cfg q = .ok ctx it ev cl tr ∧
      (∃ base, ctx = finalizeCtx base it cfg.finalTs) ∧
      strPfx (seedCtx q) ctx ∧
      List.Pairwise strPfx (seedCtx q :: tr ++ [ctx]) := by
  obtain ⟨Δ, it, ev, cl, hgo, hch⟩ := runGo_chain cfg hTool cfg.maxIterations 0
    ⟨seedCtx q, 0, [], 0, []⟩
  refine ⟨finalizeCtx (lastOf (seedCtx q) Δ) it cfg.finalTs, it, ev, cl, Δ,
    by simpa [AgentLoop.run] using hgo, ⟨lastOf (seedCtx q) Δ, rfl⟩, ?_, ?_⟩
  · exact strPfx_trans (chainPfx_last hch) (finalizeCtx_pfx _ _ _)
  · exact chainPfx_pairwise (chainPfx_snoc hch (finalizeCtx_pfx _ _ _))

/-- Witness for C8: the two-step weather run. -/
theorem c8_context_append_only_witness :
    (∀ i c, ∃ s, pyGetD (cfgWeatherLoop.engine i c) "tool" (PyVal.str "") = PyVal.str s) ∧
    ∃ ctx it ev cl tr,
      AgentLoop.run cfgWeatherLoop "q" = .ok ctx it ev cl tr ∧
      (∃ base, ctx = finalizeCtx base it cfgWeatherLoop.finalTs) ∧
      strPfx (seedCtx "q") ctx ∧
      List.Pairwise strPfx (seedCtx "q" :: tr ++ [ctx]) :=
  ⟨fun _ _ => ⟨"weather", rfl⟩,
   c8_context_append_only cfgWeatherLoop "q" (fun _ _ => ⟨"weather", rfl⟩)⟩

/-! ### C10 -/

/-- C10: the "Total context size" number in the trailing metadata block is
the length of the context at the moment the size line is formatted (after
the closing delimiter and the iteration-count line, i.e. `metaHead`), and
that number is strictly less than the length of the Context the run
actually returns, which additionally contains the size line and the
timestamp line. -/
theorem c10_size_line (cfg : LoopCfg) (q ctx : String) (it : Nat) (ev : List Event)
    (cl : Nat) (tr : List String) (h : AgentLoop.run cfg q = .ok ctx it ev cl tr) :
    ∃ base, ctx = finalizeCtx base it cfg.finalTs ∧
      strPfx (metaHead base it ++ "Total context size: " ++
        toString (metaHead base it).length ++ " characters\n") ctx ∧
      (metaHead base it).length < ctx.length := by
  have h2 : AgentLoop.runGo cfg cfg.maxIterations 0
      ⟨seedCtx q, 0, [], 0, []⟩ = .ok ctx it ev cl tr := h
  obtain ⟨base, rfl⟩ := runGo_shape cfg cfg.maxIterations 0 _ h2
  refine ⟨base, rfl, ?_, ?_⟩
  · unfold finalizeCtx
    apply strPfx_append_left
    apply strPfx_append_left
    apply strPfx_append_left
    exact strPfx_refl _
  · unfold finalizeCtx
    rw [String.length_append, String.length_append, String.length_append,
      String.length_append, String.length_append, String.length_append]
    have h1 : 0 < ("Total context size: " : String).length := by decide
    omega

/-- An engine that stops immediately, with bound 1. -/
def cfgStopNow : LoopCfg :=
  { env := trivEnv, engine := fun _ _ => [("tool", PyVal.str "stop")],
    stepTs := fun _ => "T", finalTs := "T", hasCallback := false, maxIterations := 1 }

/-- Witness for C10: a concrete one-step run. -/
theorem c10_size_line_witness :
    AgentLoop.run cfgStopNow "q" = .ok (finalizeCtx (seedCtx "q") 1 "T") 1 [] 1 [] ∧
    ∃ base, finalizeCtx (seedCtx "q") 1 "T" = finalizeCtx base 1 cfgStopNow.finalTs ∧
      strPfx (metaHead base 1 ++ "Total context size: " ++
        toString (metaHead base 1).length ++ " characters\n")
        (finalizeCtx (seedCtx "q") 1 "T") ∧
      (metaHead base 1).length < (finalizeCtx (seedCtx "q") 1 "T").length :=
  ⟨rfl, c10_size_line cfgStopNow "q" (finalizeCtx (seedCtx "q") 1 "T") 1 [] 1 [] rfl⟩

/-! ### C1 -/

lemma mem_data_append_right (a b : String) {c : Char} (h : c ∈ b.data) :
    c ∈ (a ++ b).data := by
  rw [String.data_append]
  exact List.mem_append_right _ h

lemma mem_data_append_left (a b : String) {c : Char} (h : c ∈ a.data) :
    c ∈ (a ++ b).data := by
  rw [String.data_append]
  exact List.mem_append_left _ h

/-- An engine whose first decision is `"STOP"` (upper case) and whose
second is `"stop"`. -/
def cfgCaseStop : LoopCfg :=
  { env := trivEnv,
    engine := fun i _ => if i = 0 then [("tool", PyVal.str "STOP")]
      else [("tool", PyVal.str "stop")],
    stepTs := fun _ => "T", finalTs := "T", hasCallback := true, maxIterations := 3 }

/-- Counterexample to C1 as stated: the loop's stop check is
case-sensitive (`tool_decision.get("tool") == "stop"`) while
`execute_tool` lowers the name, so a `"STOP"` decision does not stop the
loop but executes the `stop` branch, which returns the empty string — no
block is appended.  The run below stops at step `k = 2`, yet its Context
is the bare seed plus metadata: it does not consist of `k - 1 = 1`
appended tool blocks. -/
theorem c1_counterexample :
    AgentLoop.run cfgCaseStop "q" = RunOut.ok (finalizeCtx (seedCtx "q") 2 "T") 2
      [Event.thinking 1 (PyVal.str "STOP") (PyVal.str "Analyzing query...") [],
       Event.thinking 2 (PyVal.str "stop") (PyVal.str "Analyzing query...") [],
       Event.thinkingComplete "Finished gathering information"] 2 [seedCtx "q"] ∧
    pyGetD (cfgCaseStop.engine 0 (seedCtx "q")) "tool" PyVal.none ≠ PyVal.str "stop" ∧
    pyGetD (cfgCaseStop.engine 1 (seedCtx "q")) "tool" PyVal.none = PyVal.str "stop" ∧
    ¬ ∃ blocks : List String, blocks.length = 1 ∧
        (∀ b ∈ blocks, b ≠ "" ∧ ∃ x, b = x ++ dashLine) ∧
        finalizeCtx (seedCtx "q") 2 "T" =
          finalizeCtx (seedCtx "q" ++ strConcat blocks) 2 "T" := by
  refine ⟨by decide, by decide, by decide, ?_⟩
  rintro ⟨blocks, hlen, hprop, heq⟩
  obtain ⟨b, rfl⟩ : ∃ b, blocks = [b] := by
    cases blocks with
    | nil => simp at hlen
    | cons hd tl =>
        cases tl with
        | nil => exact ⟨hd, rfl⟩
        | cons hd2 tl2 => simp at hlen
  obtain ⟨hne, x, hx⟩ := hprop b (by simp)
  have hdash : '-' ∈ dashLine.data := by decide
  have hb : '-' ∈ b.data := by
    rw [hx]
    exact mem_data_append_right x dashLine hdash
  have hcat : '-' ∈ (strConcat [b]).data := mem_data_append_left b (strConcat []) hb
  have hmem : '-' ∈ (finalizeCtx (seedCtx "q" ++ strConcat [b]) 2 "T").data := by
    obtain ⟨t, ht⟩ := finalizeCtx_pfx (seedCtx "q" ++ strConcat [b]) 2 "T"
    rw [← ht]
    exact mem_data_append_left _ t (mem_data_append_right (seedCtx "q") _ hcat)
  rw [← heq] at hmem
  exact absurd hmem (by decide)

/-- C1 (amended): if the thinking callback is passed and the Decision
Engine produces, at steps `1..k-1`, decisions whose tool names are strings
that do not lower-case to `"stop"`, and at step `k` (`1 ≤ k ≤
max_iterations`) a stop decision, then the run returns a Context that is
exactly the seed query header, `k - 1` appended (non-empty,
separator-terminated) tool blocks, and the trailing metadata block, and
the callback receives exactly one `thinking_complete` event. -/
theorem c1_stop_at_k_amended (cfg : LoopCfg) (q : String) (k : Nat)
    (hcb : cfg.hasCallback = true) (hk1 : 1 ≤ k) (hk2 : k ≤ cfg.maxIterations)
    (hNS : ∀ t, t < k - 1 → ∀ c, ∃ s, pyGetD (cfg.engine t c) "tool" (PyVal.str "") =
        PyVal.str s ∧ strLower s ≠ "stop")
    (hStop : ∀ c, pyGetD (cfg.engine (k - 1) c) "tool" PyVal.none = PyVal.str "stop") :
    ∃ blocks ev tr,
      AgentLoop.run cfg q =
        .ok (finalizeCtx (seedCtx q ++ strConcat blocks) k cfg.finalTs) k ev k tr ∧
      blocks.length = k - 1 ∧ (∀ b ∈ blocks, b ≠ "" ∧ ∃ x, b = x ++ dashLine) ∧
      ev.countP isComplete = 1 := by
  obtain ⟨blocks, ev, tr, hgo, hlen, hne, hcnt⟩ := runGo_firstStop cfg hcb (k - 1)
    cfg.maxIterations 0 ⟨seedCtx q, 0, [], 0, []⟩ (by omega)
    (by intro t ht c; simpa using hNS t ht c)
    (by intro c; simpa using hStop c)
  refine ⟨blocks, ev, tr, ?_, hlen, hne, hcnt⟩
  dsimp only at hgo
  simp only [Nat.zero_add, List.nil_append] at hgo
  have e1 : k - 1 + 1 = k := by omega
  rw [e1] at hgo
  simpa [AgentLoop.run] using hgo

/-- An engine asking for Paris weather, then stopping. -/
def cfgWeatherStop : LoopCfg :=
  { env := trivEnv,
    engine := fun i _ => if i = 0 then
        [("tool", PyVal.str "weather"), ("city", PyVal.str "Paris")]
      else [("tool", PyVal.str "stop"), ("stop", PyVal.bool true)],
    stepTs := fun _ => "T", finalTs := "T", hasCallback := true, maxIterations := 10 }

/-- Witness for C1 (amended): one weather step, stop at step 2. -/
theorem c1_stop_at_k_witness :
    cfgWeatherStop.hasCallback = true ∧ 1 ≤ 2 ∧ 2 ≤ cfgWeatherStop.maxIterations ∧
    ∃ blocks ev tr,
      AgentLoop.run cfgWeatherStop "trip" =
        .ok (finalizeCtx (seedCtx "trip" ++ strConcat blocks) 2 cfgWeatherStop.finalTs)
          2 ev 2 tr ∧
      blocks.length = 1 ∧ (∀ b ∈ blocks, b ≠ "" ∧ ∃ x, b = x ++ dashLine) ∧
      ev.countP isComplete = 1 :=
  ⟨rfl, by omega, by decide,
   c1_stop_at_k_amended cfgWeatherStop "trip" 2 rfl (by omega) (by decide)
     (fun t ht c => by
       have ht0 : t = 0 := by omega
       subst ht0
       exact ⟨"weather", rfl, by decide⟩)
     (fun c => rfl)⟩
